import Mathlib

set_option maxRecDepth 16000

/-!
Verification development for the MS Perfect resource planner
(`resource_allocation_app.py`).

The aggregation core of the application is shallowly embedded below:

* `parseMonthStr` / `get_fiscal_quarter` model the `"%Y-%m"` parse and the
  fiscal-quarter labelling (source lines 30-56);
* `sort_quarters_chronologically` models the chronological quarter sort
  (source lines 277-279);
* `monthRawAlloc`, `monthPto`, `urow`, `drow` and the aggregator driver
  model `generate_monthly_utilization_chart` (source lines 340-563).

Python floats are modelled by `ℚ`; a value that `float()` would reject is
modelled as `Option.none` on the assignment record.  `round(x, 1)` is
modelled by exact half-even rounding at one decimal (`round1`).
-/

/-! ### Fiscal calendar -/

/-- A decimal digit character. -/
def isDigitCh (c : Char) : Bool := decide ('0' ≤ c) && decide (c ≤ '9')

/-- Numeric value of a digit character. -/
def dval (c : Char) : Nat := c.toNat - '0'.toNat

/-- Model of `datetime.strptime(month_str, "%Y-%m")` followed by reading the
`.year` and `.month` fields.  CPython's `_strptime` matches `%Y` against
exactly four digits and `%m` against `1[0-2]|0[1-9]|[1-9]`, requires the
whole string to be consumed, and `datetime` rejects year 0.  Returns
`some (year, month)` on success, `none` when `strptime` (or `datetime`)
would raise. -/
def parseMonthStr (s : String) : Option (Nat × Nat) :=
  match s.toList with
  | [a, b, c, d, h, m] =>
    if isDigitCh a ∧ isDigitCh b ∧ isDigitCh c ∧ isDigitCh d ∧ h = '-' ∧
       isDigitCh m ∧ m ≠ '0' then
      let y := 1000 * dval a + 100 * dval b + 10 * dval c + dval d
      if 1 ≤ y then some (y, dval m) else none
    else none
  | [a, b, c, d, h, m1, m2] =>
    if isDigitCh a ∧ isDigitCh b ∧ isDigitCh c ∧ isDigitCh d ∧ h = '-' ∧
       isDigitCh m1 ∧ isDigitCh m2 ∧
       ((m1 = '1' ∧ dval m2 ≤ 2) ∨ (m1 = '0' ∧ m2 ≠ '0')) then
      let y := 1000 * dval a + 100 * dval b + 10 * dval c + dval d
      if 1 ≤ y then some (y, 10 * dval m1 + dval m2) else none
    else none
  | _ => none

/-- The quarter label computed from a parsed (year, month) pair; body of the
`try` block of `get_fiscal_quarter` (source lines 33-54). -/
def fiscalQuarterOfYM (year month : Nat) : String :=
  let fiscalYear := if 8 ≤ month then year + 1 else year
  if month = 8 ∨ month = 9 ∨ month = 10 then "Q1 FY" ++ toString fiscalYear
  else if month = 11 ∨ month = 12 then "Q2 FY" ++ toString fiscalYear
  else if month = 1 then "Q2 FY" ++ toString fiscalYear
  else if month = 2 ∨ month = 3 ∨ month = 4 then "Q3 FY" ++ toString fiscalYear
  else "Q4 FY" ++ toString fiscalYear

/-- `get_fiscal_quarter` (source lines 30-56): parse the month string; on any
parse failure the bare `except` returns the sentinel `"Unknown"`. -/
def get_fiscal_quarter (month_str : String) : String :=
  match parseMonthStr month_str with
  | some (y, m) => fiscalQuarterOfYM y m
  | none => "Unknown"

/-! ### Chronological quarter ordering -/

/-- Python `str.split()` with no argument: split on whitespace runs,
discarding empty pieces (accumulator holds the current token reversed). -/
def pySplitAux : List Char → List Char → List (List Char)
  | [], cur => if cur.isEmpty then [] else [cur.reverse]
  | c :: rest, cur =>
    if c.isWhitespace then
      if cur.isEmpty then pySplitAux rest []
      else cur.reverse :: pySplitAux rest []
    else pySplitAux rest (c :: cur)

/-- Python `str.split()`. -/
def pySplit (s : String) : List String :=
  (pySplitAux s.data []).map String.mk

/-- Python `str.replace('FY', '')`: drop every (non-overlapping, scanned
left to right) occurrence of `"FY"`. -/
def removeFY : List Char → List Char
  | 'F' :: 'Y' :: rest => removeFY rest
  | c :: rest => c :: removeFY rest
  | [] => []

/-- Python `int(...)` on a digit string, `none` where `int` raises. -/
def parseNatChars (l : List Char) : Option Nat :=
  if l ≠ [] ∧ l.all isDigitCh then
    some (l.foldl (fun acc c => 10 * acc + dval c) 0)
  else none

/-- The Python sort key `(int(x.split()[1].replace('FY','')),
int(x.split()[0][1]))` of `sort_quarters_chronologically` (source line 279),
as a (fiscal year, quarter number) pair.  Malformed labels (on which Python's
`int` or the index would raise) are given component value 0; the claims only
concern well-formed `"Qn FYyyyy"` labels. -/
def quarterSortKey (q : String) : Nat × Nat :=
  let parts := pySplit q
  let fy := (parseNatChars (removeFY ((parts.getD 1 "").data))).getD 0
  let c := ((parts.getD 0 "").data).getD 1 ' '
  let qn := if isDigitCh c then dval c else 0
  (fy, qn)

/-- Plain lexicographic string comparison by code points (Python string
`<=`), used only to contrast with the chronological order. -/
def charListLe : List Char → List Char → Bool
  | [], _ => true
  | _ :: _, [] => false
  | c :: cs, d :: ds =>
    if c < d then true else if d < c then false else charListLe cs ds

/-- Lexicographic comparison of sort keys, mirroring Python tuple `≤`. -/
def quarterKeyLe (a b : String) : Bool :=
  let ka := quarterSortKey a
  let kb := quarterSortKey b
  decide (ka.1 < kb.1) || (decide (ka.1 = kb.1) && decide (ka.2 ≤ kb.2))

/-- `sort_quarters_chronologically` (source lines 277-279): Python's stable
`sorted` by the key tuple, modelled by a stable insertion sort under the
lexicographic key order. -/
def sort_quarters_chronologically (quarters : List String) : List String :=
  List.insertionSort (fun a b => quarterKeyLe a b = true) quarters

/-- First occurrences, in order, of the elements of a list; models the
insertion order of the keys of `quarters_dict` (source lines 365-370). -/
def firstOccAux : List String → List String → List String
  | [], acc => acc.reverse
  | q :: rest, acc =>
    if q ∈ acc then firstOccAux rest acc else firstOccAux rest (q :: acc)

/-- Key list of `quarters_dict`: quarter labels of the window's months, first
occurrence order. -/
def firstOcc (l : List String) : List String := firstOccAux l []

/-! ### Data model

Columns of `engineers.csv` and `monthly_assignments.csv` that the
aggregation core reads.  After the load boundary (source lines 1025-1187)
every `PTO_` column and `Allocation %` is numeric, hence `ℚ`; an
`Allocation %` value that the in-loop `float(...)` would reject is kept as
`none`. -/

/-- One roster row.  `pto` gives the numeric value of a monthly
`PTO_<YYYY>_<MM>` column; `annualPto` is the `Annual PTO Days` column. -/
structure Engineer where
  name : String
  team : String
  role : String
  weeklyHours : ℚ
  pto : String → ℚ
  annualPto : ℚ

/-- The engineers dataframe: its rows together with the set of `PTO_`
columns that actually exist (membership tested by
`month_pto_key in engineers_df.columns`). -/
structure Roster where
  engineers : List Engineer
  ptoColumns : List String

/-- One ledger row of the monthly assignments dataframe. -/
structure Assignment where
  engineer : String
  program : String
  feature : String
  priority : String
  month : String
  alloc : Option ℚ
  notes : String

/-- Python `str.strip()`: drop leading and trailing whitespace. -/
def pyStrip (s : String) : String :=
  String.mk
    (((s.data.dropWhile fun c => c.isWhitespace).reverse.dropWhile
      fun c => c.isWhitespace).reverse)

/-- Valid engineer names (source lines 344-347): keep `str(name).strip()`
whenever the strip is non-empty and the unstripped string is not `'nan'`. -/
def validEngineerNames (engineers : List Engineer) : List String :=
  engineers.filterMap fun e =>
    if pyStrip e.name ≠ "" ∧ e.name ≠ "nan" then some (pyStrip e.name)
    else none

/-- `f"PTO_{month.replace('-', '_')}"` (source line 410); for the
single-character pattern, Python's `replace` is a character map. -/
def ptoColKey (month : String) : String :=
  "PTO_" ++ String.mk (month.data.map fun c => if c = '-' then '_' else c)

/-- PTO days the aggregator uses for one engineer-month (source lines
402-413): `0` unless the engineer row is found and the month's `PTO_`
column exists, in which case the column value. -/
def monthPto (roster : Roster) (name month : String) : ℚ :=
  match roster.engineers.find? (fun e => e.name = name) with
  | none => 0
  | some e =>
    if ptoColKey month ∈ roster.ptoColumns then e.pto (ptoColKey month) else 0

/-- Raw allocation of one engineer-month (source lines 419-434): over the
ledger rows matching the month and engineer, sum the `Allocation %` values
that parse as numbers and are strictly positive; parse failures and
non-positive values contribute nothing. -/
def monthRawAlloc (ledger : List Assignment) (name month : String) : ℚ :=
  (ledger.filter fun a => a.month = month ∧ a.engineer = name).foldl
    (fun acc a =>
      match a.alloc with
      | some v => if 0 < v then acc + v else acc
      | none => acc) 0

/-- Count of months of the quarter whose raw allocation is strictly
positive (`months_with_data`, source lines 437-439). -/
def monthsWithDataOf (ledger : List Assignment) (name : String)
    (ms : List String) : ℕ :=
  (ms.filter fun m => decide (0 < monthRawAlloc ledger name m)).length

/-- `total_allocation` accumulated over the quarter (source lines 437-438):
each month contributes its raw allocation only when that is positive. -/
def totalAllocOf (ledger : List Assignment) (name : String)
    (ms : List String) : ℚ :=
  (ms.map fun m =>
    if 0 < monthRawAlloc ledger name m then monthRawAlloc ledger name m
    else 0).sum

/-- `total_pto_days` over the quarter (source line 441). -/
def totalPtoOf (roster : Roster) (name : String) (ms : List String) : ℚ :=
  (ms.map fun m => monthPto roster name m).sum

/-- `total_working_days` over the quarter (source lines 416, 442):
`max(0, 22 - pto_days)` summed over the quarter's months. -/
def totalWorkingOf (roster : Roster) (name : String) (ms : List String) : ℚ :=
  (ms.map fun m => max 0 (22 - monthPto roster name m)).sum

/-- Per-feature quarter totals `all_features` (source lines 423-432):
positive parseable allocations accumulated into an insertion-ordered map. -/
def addFeature (acc : List (String × ℚ)) (f : String) (v : ℚ) :
    List (String × ℚ) :=
  if acc.any (fun p => p.1 = f) then
    acc.map fun p => if p.1 = f then (p.1, p.2 + v) else p
  else acc ++ [(f, v)]

/-- The `all_features` dictionary at the end of the quarter loop. -/
def featureTotals (ledger : List Assignment) (name : String)
    (ms : List String) : List (String × ℚ) :=
  ms.foldl
    (fun acc m =>
      (ledger.filter fun a => a.month = m ∧ a.engineer = name).foldl
        (fun acc a =>
          match a.alloc with
          | some v => if 0 < v then addFeature acc a.feature v else acc
          | none => acc) acc)
    []

/-- Status classification (source lines 480-482). -/
def statusOf (eff : ℚ) : String :=
  if 100 < eff then "Over-allocated"
  else if 85 ≤ eff then "Fully Occupied"
  else "Available"

/-- One entry of `utilization_data` (source lines 444-484), carrying the
unrounded quarterly figures.  The display-only feature string of the
`'Features'` field is omitted; the numeric feature map is carried on the
details row instead. -/
structure URow where
  engineer : String
  quarter : String
  totalAlloc : ℚ
  effAlloc : ℚ
  availCap : ℚ
  ptoImpact : ℚ
  workingDays : ℚ
  ptoDays : ℚ
  status : String
  monthsWithData : ℕ
deriving DecidableEq

/-- `avg_working_days` of the assigned branch (source line 448):
`total_working_days / len(quarter_months)`. -/
def avgWorkingDaysOf (roster : Roster) (name : String)
    (ms : List String) : ℚ :=
  totalWorkingOf roster name ms / (ms.length : ℚ)

/-- `avg_working_days_ratio` (source lines 450 and 465):
`avg_working_days / 22 if avg_working_days > 0 else 1`. -/
def workingRatioOf (roster : Roster) (name : String) (ms : List String) : ℚ :=
  if 0 < avgWorkingDaysOf roster name ms then
    avgWorkingDaysOf roster name ms / 22
  else 1

/-- The ratio of the no-assignment branch (source lines 463-465), whose
`avg_working_days` guards the division by `len(quarter_months)`. -/
def workingRatioZeroOf (roster : Roster) (name : String)
    (ms : List String) : ℚ :=
  let avgWorking :=
    if 0 < ms.length then avgWorkingDaysOf roster name ms else 22
  if 0 < avgWorking then avgWorking / 22 else 1

/-- The quarter computation for one engineer (source lines 386-484),
producing the `utilization_data` entry. -/
def urow (roster : Roster) (ledger : List Assignment) (name quarter : String)
    (ms : List String) : URow :=
  let k := monthsWithDataOf ledger name ms
  let totalPto := totalPtoOf roster name ms
  let totalWorking := totalWorkingOf roster name ms
  if 0 < k then
    let avgAlloc := totalAllocOf ledger name ms / (k : ℚ)
    let ratio := workingRatioOf roster name ms
    let eff := avgAlloc
    let avail := max 0 (100 * ratio - eff)
    { engineer := name, quarter := quarter, totalAlloc := avgAlloc,
      effAlloc := eff, availCap := avail, ptoImpact := (1 - ratio) * 100,
      workingDays := totalWorking, ptoDays := totalPto,
      status := statusOf eff, monthsWithData := k }
  else
    let ratio := workingRatioZeroOf roster name ms
    { engineer := name, quarter := quarter, totalAlloc := 0,
      effAlloc := 0, availCap := 100 * ratio, ptoImpact := 0,
      workingDays := totalWorking, ptoDays := totalPto,
      status := statusOf 0, monthsWithData := 0 }

/-! ### Rounding

`round(x, 1)` on the exact value: round half to even at one decimal. -/

/-- Round half to even to an integer. -/
def roundHalfEven (q : ℚ) : ℤ :=
  let f := ⌊q⌋
  let r := q - (f : ℚ)
  if r < 1 / 2 then f
  else if 1 / 2 < r then f + 1
  else if f % 2 = 0 then f else f + 1

/-- `round(x, 1)`. -/
def round1 (q : ℚ) : ℚ := (roundHalfEven (10 * q) : ℚ) / 10

/-- One entry of `availability_details` (source lines 487-497), the
aggregator's output row ("Aggregator output columns"). -/
structure DetailsRow where
  engineer : String
  quarter : String
  features : List (String × ℚ)
  totalAllocPct : ℚ
  effAllocPct : ℚ
  availPct : ℚ
  ptoDays : ℚ
  workingDays : ℚ
  monthsWithData : ℕ
deriving DecidableEq

/-- The `availability_details` entry for one engineer and quarter
(source lines 487-497), rounding the figures of `urow` to one decimal;
`PTO Days` and `Working Days` are per-month averages over all of the
quarter's months. -/
def drow (roster : Roster) (ledger : List Assignment) (name quarter : String)
    (ms : List String) : DetailsRow :=
  let u := urow roster ledger name quarter ms
  { engineer := name, quarter := quarter,
    features := featureTotals ledger name ms,
    totalAllocPct := round1 u.totalAlloc,
    effAllocPct := round1 u.effAlloc,
    availPct := round1 u.availCap,
    ptoDays := round1 (u.ptoDays / (ms.length : ℚ)),
    workingDays := round1 (u.workingDays / (ms.length : ℚ)),
    monthsWithData := u.monthsWithData }

/-! ### The aggregator driver -/

/-- The chronologically sorted quarter labels of the lookahead window
(source lines 364-373). -/
def windowQuarters (months : List String) : List String :=
  sort_quarters_chronologically (firstOcc (months.map get_fiscal_quarter))

/-- The months of the window belonging to one quarter (`quarters_dict`,
source lines 365-370). -/
def quarterMonthsIn (months : List String) (q : String) : List String :=
  months.filter fun m => decide (get_fiscal_quarter m = q)

/-- All `availability_details` rows produced by
`generate_monthly_utilization_chart` (source lines 379-497): for each
quarter in chronological order, one row per valid engineer name. -/
def aggregatorDetailsRows (roster : Roster) (ledger : List Assignment)
    (months : List String) : List DetailsRow :=
  (windowQuarters months).flatMap fun q =>
    (validEngineerNames roster.engineers).map fun n =>
      drow roster ledger n q (quarterMonthsIn months q)

/-- All `utilization_data` rows, in the same order. -/
def aggregatorURows (roster : Roster) (ledger : List Assignment)
    (months : List String) : List URow :=
  (windowQuarters months).flatMap fun q =>
    (validEngineerNames roster.engineers).map fun n =>
      urow roster ledger n q (quarterMonthsIn months q)

/-- Columns of the empty `availability_details` dataframe (source lines
353-354 and 560-561). -/
def emptyDetailsColumns : List String :=
  ["Engineer", "Quarter", "Features", "Total Allocation %",
   "Effective Allocation %", "Available %", "PTO Days", "Working Days"]

/-- Columns of a non-empty `availability_details` dataframe: the keys of
the row dictionary (source lines 487-497), in insertion order. -/
def fullDetailsColumns : List String :=
  ["Engineer", "Quarter", "Features", "Total Allocation %",
   "Effective Allocation %", "Available %", "PTO Days", "Working Days",
   "Months with Data"]

/-- Column schema of the details dataframe the aggregator returns: the
early-return schema when there is no valid engineer (source lines 349-355),
the empty-dataframe schema when no row was produced (source lines 559-561),
and otherwise the keys of the produced rows. -/
def aggregatorDetailsColumns (roster : Roster) (ledger : List Assignment)
    (months : List String) : List String :=
  if (validEngineerNames roster.engineers).isEmpty then emptyDetailsColumns
  else if (aggregatorDetailsRows roster ledger months).isEmpty then
    emptyDetailsColumns
  else fullDetailsColumns

/-! ### Theorems: fiscal calendar -/

/-- Helper: a label built from a prefix whose first character is not `'U'`
is never the `"Unknown"` sentinel. -/
theorem append_ne_unknown (p t : String) (c : Char) (cs : List Char)
    (hp : p.data = c :: cs) (hc : c ≠ 'U') : p ++ t ≠ "Unknown" := by
  intro h
  have hd : p.data ++ t.data = "Unknown".data := by
    rw [← String.data_append, h]
  rw [hp] at hd
  have h2 : "Unknown".data = 'U' :: ['n', 'k', 'n', 'o', 'w', 'n'] := rfl
  rw [h2, List.cons_append] at hd
  injection hd with h3 _
  exact hc h3

/-- A successfully parsed month never yields the sentinel label. -/
theorem fiscalQuarterOfYM_ne_unknown (y m : Nat) :
    fiscalQuarterOfYM y m ≠ "Unknown" := by
  unfold fiscalQuarterOfYM
  split_ifs <;>
    first
      | exact append_ne_unknown _ _ 'Q' ['1', ' ', 'F', 'Y'] rfl (by decide)
      | exact append_ne_unknown _ _ 'Q' ['2', ' ', 'F', 'Y'] rfl (by decide)
      | exact append_ne_unknown _ _ 'Q' ['3', ' ', 'F', 'Y'] rfl (by decide)
      | exact append_ne_unknown _ _ 'Q' ['4', ' ', 'F', 'Y'] rfl (by decide)

/-- C3: for every well-formed month string, `get_fiscal_quarter` maps
August-October to Q1, November-January to Q2, February-April to Q3 and
May-July to Q4, and the fiscal year increments at the August boundary. -/
theorem C3_fiscal_quarter_boundaries (s : String) (y m : Nat)
    (h : parseMonthStr s = some (y, m)) :
    (8 ≤ m ∧ m ≤ 10 → get_fiscal_quarter s = "Q1 FY" ++ toString (y + 1)) ∧
    ((m = 11 ∨ m = 12) → get_fiscal_quarter s = "Q2 FY" ++ toString (y + 1)) ∧
    (m = 1 → get_fiscal_quarter s = "Q2 FY" ++ toString y) ∧
    (2 ≤ m ∧ m ≤ 4 → get_fiscal_quarter s = "Q3 FY" ++ toString y) ∧
    (5 ≤ m ∧ m ≤ 7 → get_fiscal_quarter s = "Q4 FY" ++ toString y) := by
  have hq : get_fiscal_quarter s = fiscalQuarterOfYM y m := by
    unfold get_fiscal_quarter
    rw [h]
  rw [hq]
  refine ⟨?_, ?_, ?_, ?_, ?_⟩
  · rintro ⟨h1, h2⟩
    interval_cases m <;> simp [fiscalQuarterOfYM]
  · rintro (rfl | rfl) <;> simp [fiscalQuarterOfYM]
  · rintro rfl
    simp [fiscalQuarterOfYM]
  · rintro ⟨h1, h2⟩
    interval_cases m <;> simp [fiscalQuarterOfYM]
  · rintro ⟨h1, h2⟩
    interval_cases m <;> simp [fiscalQuarterOfYM]

/-- C3 witness: `"2025-07"`, `"2025-08"` and `"2026-01"` land in
Q4 FY2025, Q1 FY2026 and Q2 FY2026 respectively. -/
theorem C3_fiscal_quarter_boundaries_witness :
    parseMonthStr "2025-07" = some (2025, 7) ∧
    get_fiscal_quarter "2025-07" = "Q4 FY2025" ∧
    parseMonthStr "2025-08" = some (2025, 8) ∧
    get_fiscal_quarter "2025-08" = "Q1 FY2026" ∧
    parseMonthStr "2026-01" = some (2026, 1) ∧
    get_fiscal_quarter "2026-01" = "Q2 FY2026" := by
  refine ⟨by decide, ?_, by decide, ?_, by decide, ?_⟩
  · have h4 := (C3_fiscal_quarter_boundaries "2025-07" 2025 7
      (by decide)).2.2.2.2 ⟨by norm_num, by norm_num⟩
    rw [h4]
    decide
  · have h1 := (C3_fiscal_quarter_boundaries "2025-08" 2025 8
      (by decide)).1 ⟨by norm_num, by norm_num⟩
    rw [h1]
    decide
  · have h2 := (C3_fiscal_quarter_boundaries "2026-01" 2026 1
      (by decide)).2.2.1 rfl
    rw [h2]
    decide

/-- C8: `get_fiscal_quarter` is total and returns the `"Unknown"` sentinel
exactly on the strings the `"%Y-%m"` parse rejects; a parseable month never
maps to the sentinel. -/
theorem C8_unknown_sentinel (s : String) :
    get_fiscal_quarter s = "Unknown" ↔ parseMonthStr s = none := by
  unfold get_fiscal_quarter
  cases hp : parseMonthStr s with
  | none => simp
  | some ym =>
    obtain ⟨y, m⟩ := ym
    simp [fiscalQuarterOfYM_ne_unknown y m]

/-! ### Theorems: chronological quarter ordering -/

/-- C7: `sort_quarters_chronologically` returns a permutation of its input
that is sorted by the (fiscal year, quarter number) key — not by plain
string order, as the concrete example shows. -/
theorem C7_chronological_order :
    sort_quarters_chronologically ["Q3 FY2025", "Q1 FY2026", "Q4 FY2024"] =
      ["Q4 FY2024", "Q3 FY2025", "Q1 FY2026"] ∧
    (List.insertionSort (fun a b : String => charListLe a.data b.data = true)
        ["Q3 FY2025", "Q1 FY2026", "Q4 FY2024"] ≠
      sort_quarters_chronologically ["Q3 FY2025", "Q1 FY2026", "Q4 FY2024"]) ∧
    (∀ qs : List String, (sort_quarters_chronologically qs).Perm qs) ∧
    (∀ qs : List String, (sort_quarters_chronologically qs).Pairwise
      fun a b => quarterKeyLe a b = true) := by
  haveI htrans : IsTrans String (fun a b => quarterKeyLe a b = true) := by
    constructor
    intro a b c hab hbc
    simp only [quarterKeyLe, Bool.or_eq_true, Bool.and_eq_true,
      decide_eq_true_eq] at hab hbc ⊢
    omega
  haveI htotal : IsTotal String (fun a b => quarterKeyLe a b = true) := by
    constructor
    intro a b
    simp only [quarterKeyLe, Bool.or_eq_true, Bool.and_eq_true,
      decide_eq_true_eq]
    omega
  refine ⟨by decide, by decide,
    fun qs => List.perm_insertionSort _ qs, fun qs => ?_⟩
  exact List.sorted_insertionSort _ qs

/-! ### Concrete fixtures used by witnesses and counterexamples -/

/-- An engineer with no PTO anywhere. -/
def engNoPto : Engineer :=
  { name := "A", team := "Team A", role := "Backend Dev", weeklyHours := 40,
    pto := fun _ => 0, annualPto := 0 }

/-- Roster with the single engineer `"A"` and no monthly PTO columns. -/
def rosterNoPto : Roster := { engineers := [engNoPto], ptoColumns := [] }

/-- A single 30% assignment of engineer `"A"` in August 2025. -/
def asg30 : Assignment :=
  { engineer := "A", program := "P", feature := "F", priority := "High",
    month := "2025-08", alloc := some 30, notes := "" }

/-- The three months of Q1 FY2026. -/
def q1Months : List String := ["2025-08", "2025-09", "2025-10"]

/-! ### Field lemmas for the two branches of `urow` -/

/-- `Total Allocation` of an assigned quarter is the accumulated allocation
divided by the number of months with data. -/
theorem urow_totalAlloc_pos (roster : Roster) (ledger : List Assignment)
    (name quarter : String) (ms : List String)
    (hk : 0 < monthsWithDataOf ledger name ms) :
    (urow roster ledger name quarter ms).totalAlloc =
      totalAllocOf ledger name ms / (monthsWithDataOf ledger name ms : ℚ) := by
  simp only [urow]
  rw [if_pos hk]

/-- `Effective Allocation` of an assigned quarter equals the same average. -/
theorem urow_effAlloc_pos (roster : Roster) (ledger : List Assignment)
    (name quarter : String) (ms : List String)
    (hk : 0 < monthsWithDataOf ledger name ms) :
    (urow roster ledger name quarter ms).effAlloc =
      totalAllocOf ledger name ms / (monthsWithDataOf ledger name ms : ℚ) := by
  simp only [urow]
  rw [if_pos hk]

/-- `Available Capacity` of an assigned quarter. -/
theorem urow_availCap_pos (roster : Roster) (ledger : List Assignment)
    (name quarter : String) (ms : List String)
    (hk : 0 < monthsWithDataOf ledger name ms) :
    (urow roster ledger name quarter ms).availCap =
      max 0 (100 * workingRatioOf roster name ms -
        totalAllocOf ledger name ms / (monthsWithDataOf ledger name ms : ℚ)) := by
  simp only [urow]
  rw [if_pos hk]

/-- Fields of the no-assignment branch of `urow`. -/
theorem urow_zero_branch (roster : Roster) (ledger : List Assignment)
    (name quarter : String) (ms : List String)
    (hk : monthsWithDataOf ledger name ms = 0) :
    (urow roster ledger name quarter ms).totalAlloc = 0 ∧
    (urow roster ledger name quarter ms).effAlloc = 0 ∧
    (urow roster ledger name quarter ms).availCap =
      100 * workingRatioZeroOf roster name ms ∧
    (urow roster ledger name quarter ms).status = statusOf 0 := by
  have hk2 : ¬ 0 < monthsWithDataOf ledger name ms := by omega
  refine ⟨?_, ?_, ?_, ?_⟩ <;>
    · simp only [urow]
      rw [if_neg hk2]

/-- `status` is the classification of `Effective Allocation`, in both
branches. -/
theorem urow_status_eq (roster : Roster) (ledger : List Assignment)
    (name quarter : String) (ms : List String) :
    (urow roster ledger name quarter ms).status =
      statusOf ((urow roster ledger name quarter ms).effAlloc) := by
  simp only [urow]
  split <;> rfl

/-- `PTO Days` and `Working Days` are the quarter totals, in both
branches. -/
theorem urow_pto_working (roster : Roster) (ledger : List Assignment)
    (name quarter : String) (ms : List String) :
    (urow roster ledger name quarter ms).ptoDays =
      totalPtoOf roster name ms ∧
    (urow roster ledger name quarter ms).workingDays =
      totalWorkingOf roster name ms := by
  constructor <;>
    · simp only [urow]
      split <;> rfl

/-- The accumulated quarter allocation is precisely the sum of the raw
allocations of the months whose raw allocation is positive. -/
theorem totalAllocOf_eq_filter (ledger : List Assignment) (name : String)
    (ms : List String) :
    totalAllocOf ledger name ms =
      ((ms.filter fun m => decide (0 < monthRawAlloc ledger name m)).map
        (monthRawAlloc ledger name)).sum := by
  induction ms with
  | nil => rfl
  | cons m ms ih =>
    simp only [totalAllocOf, List.map_cons, List.sum_cons, List.filter_cons]
      at ih ⊢
    by_cases h : 0 < monthRawAlloc ledger name m
    · simp [h, ih]
    · simp [h, ih]

/-! ### Theorems: quarter averaging (C1) -/

/-- C1: for an engineer with at least one assigned month in the quarter,
the aggregator reports `Total Allocation` and `Effective Allocation` equal
to the sum of the raw allocations over the months with strictly positive
raw allocation, divided by the number of such months (assignment-free
months are excluded from the denominator). -/
theorem C1_sparse_month_averaging (roster : Roster)
    (ledger : List Assignment) (name quarter : String) (ms : List String)
    (hk : 0 < monthsWithDataOf ledger name ms) :
    (urow roster ledger name quarter ms).totalAlloc =
      ((ms.filter fun m => decide (0 < monthRawAlloc ledger name m)).map
          (monthRawAlloc ledger name)).sum /
        (monthsWithDataOf ledger name ms : ℚ) ∧
    (urow roster ledger name quarter ms).effAlloc =
      ((ms.filter fun m => decide (0 < monthRawAlloc ledger name m)).map
          (monthRawAlloc ledger name)).sum /
        (monthsWithDataOf ledger name ms : ℚ) := by
  rw [urow_totalAlloc_pos roster ledger name quarter ms hk,
    urow_effAlloc_pos roster ledger name quarter ms hk,
    totalAllocOf_eq_filter]
  exact ⟨rfl, rfl⟩

/-- C1 witness: a single 30% assignment in one month of a three-month
quarter with zero PTO yields quarterly allocation 30, and the reported
`Effective Allocation %` is 30.0, not 10.0. -/
theorem C1_sparse_month_averaging_witness :
    0 < monthsWithDataOf [asg30] "A" q1Months ∧
    (urow rosterNoPto [asg30] "A" "Q1 FY2026" q1Months).totalAlloc = 30 ∧
    (urow rosterNoPto [asg30] "A" "Q1 FY2026" q1Months).effAlloc = 30 ∧
    (drow rosterNoPto [asg30] "A" "Q1 FY2026" q1Months).effAllocPct = 30 ∧
    (drow rosterNoPto [asg30] "A" "Q1 FY2026" q1Months).effAllocPct ≠ 10 := by
  have h := C1_sparse_month_averaging rosterNoPto [asg30] "A" "Q1 FY2026"
    q1Months (of_decide_eq_true (by with_unfolding_all rfl))
  refine ⟨of_decide_eq_true (by with_unfolding_all rfl), ?_, ?_,
    of_decide_eq_true (by with_unfolding_all rfl),
    of_decide_eq_true (by with_unfolding_all rfl)⟩
  · rw [h.1]
    exact of_decide_eq_true (by with_unfolding_all rfl)
  · rw [h.2]
    exact of_decide_eq_true (by with_unfolding_all rfl)

/-! ### Theorems: status classification (C4) -/

/-- The three-way characterisation of `statusOf`. -/
theorem statusOf_iff (x : ℚ) :
    (statusOf x = "Over-allocated" ↔ 100 < x) ∧
    (statusOf x = "Fully Occupied" ↔ (85 ≤ x ∧ x ≤ 100)) ∧
    (statusOf x = "Available" ↔ x < 85) := by
  unfold statusOf
  split_ifs with h1 h2
  · exact ⟨iff_of_true rfl h1,
      iff_of_false (by decide) (fun h => absurd h1 (not_lt.mpr h.2)),
      iff_of_false (by decide) (not_lt.mpr (by linarith))⟩
  · exact ⟨iff_of_false (by decide) h1,
      iff_of_true rfl ⟨h2, not_lt.mp h1⟩,
      iff_of_false (by decide) (not_lt.mpr h2)⟩
  · have hx : x < 85 := not_le.mp h2
    exact ⟨iff_of_false (by decide) (fun h => absurd h (by push_neg; linarith)),
      iff_of_false (by decide) (fun h => h2 h.1),
      iff_of_true rfl hx⟩

/-- An 85% assignment in the single window month of a quarter. -/
def asg85 : Assignment :=
  { engineer := "A", program := "P", feature := "F", priority := "High",
    month := "2025-08", alloc := some 85, notes := "" }

/-- An 84.9% assignment. -/
def asg849 : Assignment :=
  { engineer := "A", program := "P", feature := "F", priority := "High",
    month := "2025-08", alloc := some (849 / 10), notes := "" }

/-- A 100.1% assignment. -/
def asg1001 : Assignment :=
  { engineer := "A", program := "P", feature := "F", priority := "High",
    month := "2025-08", alloc := some (1001 / 10), notes := "" }

/-- C4: every aggregator row is classified `"Over-allocated"` exactly when
effective allocation exceeds 100, `"Fully Occupied"` exactly when it lies
in `[85, 100]`, and `"Available"` exactly when it is below 85; effective
allocations 85, 84.9 and 100.1 classify as stated in the spec. -/
theorem C4_status_classification :
    (∀ (roster : Roster) (ledger : List Assignment) (name quarter : String)
      (ms : List String),
      ((urow roster ledger name quarter ms).status = "Over-allocated" ↔
        100 < (urow roster ledger name quarter ms).effAlloc) ∧
      ((urow roster ledger name quarter ms).status = "Fully Occupied" ↔
        (85 ≤ (urow roster ledger name quarter ms).effAlloc ∧
          (urow roster ledger name quarter ms).effAlloc ≤ 100)) ∧
      ((urow roster ledger name quarter ms).status = "Available" ↔
        (urow roster ledger name quarter ms).effAlloc < 85)) ∧
    (urow rosterNoPto [asg85] "A" "Q1 FY2026" ["2025-08"]).effAlloc = 85 ∧
    (urow rosterNoPto [asg85] "A" "Q1 FY2026" ["2025-08"]).status =
      "Fully Occupied" ∧
    (urow rosterNoPto [asg849] "A" "Q1 FY2026" ["2025-08"]).effAlloc =
      849 / 10 ∧
    (urow rosterNoPto [asg849] "A" "Q1 FY2026" ["2025-08"]).status =
      "Available" ∧
    (urow rosterNoPto [asg1001] "A" "Q1 FY2026" ["2025-08"]).effAlloc =
      1001 / 10 ∧
    (urow rosterNoPto [asg1001] "A" "Q1 FY2026" ["2025-08"]).status =
      "Over-allocated" := by
  refine ⟨?_, of_decide_eq_true (by with_unfolding_all rfl),
    of_decide_eq_true (by with_unfolding_all rfl),
    of_decide_eq_true (by with_unfolding_all rfl),
    of_decide_eq_true (by with_unfolding_all rfl),
    of_decide_eq_true (by with_unfolding_all rfl),
    of_decide_eq_true (by with_unfolding_all rfl)⟩
  intro roster ledger name quarter ms
  rw [urow_status_eq roster ledger name quarter ms]
  exact statusOf_iff _

/-! ### Theorems: PTO and the capacity ceiling (C2) -/

/-- Modelled from the spec's words, for refinement comparison only:
"`available_capacity = max(0, 100*avg_working_days_ratio -
effective_allocation)`" with the working-days ratio read per the glossary
as average working days over a standard 22-day month. -/
def availableCapacitySpec (avgWorkingDays eff : ℚ) : ℚ :=
  max 0 (100 * (avgWorkingDays / 22) - eff)

/-- An engineer whose August-2025 PTO column value is 22 (a full month of
PTO, the top of the documented 0-22 range). -/
def engFullPto : Engineer :=
  { name := "A", team := "Team A", role := "Backend Dev", weeklyHours := 40,
    pto := fun _ => 22, annualPto := 22 }

/-- Roster carrying `engFullPto` with the August 2025 PTO column present. -/
def rosterFullPto : Roster :=
  { engineers := [engFullPto], ptoColumns := ["PTO_2025_08"] }

/-- An engineer with 11 PTO days in every present column. -/
def engHalfPto : Engineer :=
  { name := "A", team := "Team A", role := "Backend Dev", weeklyHours := 40,
    pto := fun _ => 11, annualPto := 11 }

/-- Roster carrying `engHalfPto` with the August 2025 PTO column present. -/
def rosterHalfPto : Roster :=
  { engineers := [engHalfPto], ptoColumns := ["PTO_2025_08"] }

/-- A 50% assignment of engineer `"A"` in August 2025. -/
def asg50 : Assignment :=
  { engineer := "A", program := "P", feature := "F", priority := "High",
    month := "2025-08", alloc := some 50, notes := "" }

/-- C2 counterexample: with a 50% assignment and 22 PTO days in the only
window month of the quarter, the code's working-days guard forces the
ratio to 1 and reports Available % 50, while the claimed formula
`max(0, 100*avg_working_days_ratio - effective_allocation)` gives 0. -/
theorem C2_pto_ceiling_cex :
    (urow rosterFullPto [asg50] "A" "Q1 FY2026" ["2025-08"]).effAlloc = 50 ∧
    (urow rosterFullPto [asg50] "A" "Q1 FY2026" ["2025-08"]).availCap = 50 ∧
    availableCapacitySpec (avgWorkingDaysOf rosterFullPto "A" ["2025-08"])
      ((urow rosterFullPto [asg50] "A" "Q1 FY2026" ["2025-08"]).effAlloc)
      = 0 ∧
    (urow rosterFullPto [asg50] "A" "Q1 FY2026" ["2025-08"]).availCap ≠
      availableCapacitySpec (avgWorkingDaysOf rosterFullPto "A" ["2025-08"])
        ((urow rosterFullPto [asg50] "A" "Q1 FY2026" ["2025-08"]).effAlloc) :=
  of_decide_eq_true (by with_unfolding_all rfl)

/-- C2 (amended): for a quarter with at least one assigned month and a
positive working-day total, effective allocation is the PTO-unscaled
average raw allocation and available capacity is
`max(0, 100*avg_working_days_ratio - effective_allocation)`, hence never
negative.  (When PTO wipes out every working day of the quarter the code
falls back to ratio 1, as the counterexample shows.) -/
theorem C2_pto_shrinks_ceiling (roster : Roster) (ledger : List Assignment)
    (name quarter : String) (ms : List String)
    (hk : 0 < monthsWithDataOf ledger name ms)
    (hw : 0 < totalWorkingOf roster name ms) :
    (urow roster ledger name quarter ms).effAlloc =
      totalAllocOf ledger name ms / (monthsWithDataOf ledger name ms : ℚ) ∧
    (urow roster ledger name quarter ms).availCap =
      availableCapacitySpec (avgWorkingDaysOf roster name ms)
        ((urow roster ledger name quarter ms).effAlloc) ∧
    0 ≤ (urow roster ledger name quarter ms).availCap := by
  have hlen : 0 < ms.length := by
    have h1 : monthsWithDataOf ledger name ms ≤ ms.length :=
      List.length_filter_le _ ms
    omega
  have hlenq : (0 : ℚ) < (ms.length : ℚ) := by exact_mod_cast hlen
  have havg : 0 < avgWorkingDaysOf roster name ms :=
    div_pos hw hlenq
  have hratio : workingRatioOf roster name ms =
      avgWorkingDaysOf roster name ms / 22 := by
    unfold workingRatioOf
    rw [if_pos havg]
  refine ⟨urow_effAlloc_pos roster ledger name quarter ms hk, ?_, ?_⟩
  · rw [urow_availCap_pos roster ledger name quarter ms hk,
      urow_effAlloc_pos roster ledger name quarter ms hk, hratio]
    rfl
  · rw [urow_availCap_pos roster ledger name quarter ms hk]
    exact le_max_left 0 _

/-- C2 witness: 50% allocation and 11 PTO days in the quarter's single
window month (working ratio 1/2) yields Effective Allocation % 50 and
Available % max(0, 50 - 50) = 0. -/
theorem C2_pto_shrinks_ceiling_witness :
    0 < monthsWithDataOf [asg50] "A" ["2025-08"] ∧
    0 < totalWorkingOf rosterHalfPto "A" ["2025-08"] ∧
    (urow rosterHalfPto [asg50] "A" "Q1 FY2026" ["2025-08"]).effAlloc = 50 ∧
    (urow rosterHalfPto [asg50] "A" "Q1 FY2026" ["2025-08"]).availCap = 0 := by
  have h := C2_pto_shrinks_ceiling rosterHalfPto [asg50] "A" "Q1 FY2026"
    ["2025-08"] (of_decide_eq_true (by with_unfolding_all rfl))
    (of_decide_eq_true (by with_unfolding_all rfl))
  refine ⟨of_decide_eq_true (by with_unfolding_all rfl),
    of_decide_eq_true (by with_unfolding_all rfl), ?_, ?_⟩
  · rw [h.1]
    exact of_decide_eq_true (by with_unfolding_all rfl)
  · rw [h.2.1]
    exact of_decide_eq_true (by with_unfolding_all rfl)

/-! ### Theorems: monthly PTO lookup (C5) -/

/-- Sum of a constant list. -/
theorem sum_map_const (ms : List String) (c : ℚ) :
    (ms.map fun _ => c).sum = (ms.length : ℚ) * c := by
  induction ms with
  | nil => simp
  | cons a l ih =>
    simp [ih]
    ring

/-- With no PTO anywhere in the quarter, the working-day total is a full
22 days per month. -/
theorem totalWorking_of_noPto (roster : Roster) (name : String)
    (ms : List String) (hz : ∀ m ∈ ms, monthPto roster name m = 0) :
    totalWorkingOf roster name ms = 22 * (ms.length : ℚ) := by
  unfold totalWorkingOf
  have hmap : ms.map (fun m => max 0 (22 - monthPto roster name m)) =
      ms.map fun _ => (22 : ℚ) := by
    apply List.map_congr_left
    intro m hm
    rw [hz m hm]
    norm_num
  rw [hmap, sum_map_const]
  ring

/-- C5 counterexample: an engineer whose August 2025 PTO column holds 12
days (so `Annual PTO Days` = 12 and `annual_pto / 12 = 1`), queried for
September 2025, whose PTO column is absent: the aggregator uses 0 PTO
days for that month, not the claimed `annual_pto / 12`. -/
def engAug12 : Engineer :=
  { name := "A", team := "Team A", role := "Backend Dev", weeklyHours := 40,
    pto := fun k => if k = "PTO_2025_08" then 12 else 0, annualPto := 12 }

/-- Roster carrying `engAug12`, with only the August 2025 PTO column. -/
def rosterAug12 : Roster :=
  { engineers := [engAug12], ptoColumns := ["PTO_2025_08"] }

/-- C5 counterexample: the month entry for September 2025 is absent, yet
the aggregator uses 0, not `annual_pto / 12 = 1`. -/
theorem C5_pto_fallback_cex :
    monthPto rosterAug12 "A" "2025-09" = 0 ∧
    (urow rosterAug12 [] "A" "Q1 FY2026" ["2025-09"]).ptoDays = 0 ∧
    engAug12.annualPto / 12 = 1 ∧
    monthPto rosterAug12 "A" "2025-09" ≠ engAug12.annualPto / 12 :=
  of_decide_eq_true (by with_unfolding_all rfl)

/-- C5 (amended): the per-month PTO value is the engineer's per-month map
entry when that month's column exists, and 0 — never `annual_pto / 12` —
when it is absent; with every column absent the quarter reports zero PTO
days and a full 22 working days per month, whatever `annualPto` holds. -/
theorem C5_monthly_pto_lookup (roster : Roster) (ledger : List Assignment)
    (name quarter : String) (ms : List String)
    (habsent : ∀ m ∈ ms, ptoColKey m ∉ roster.ptoColumns) :
    (∀ m ∈ ms, monthPto roster name m = 0) ∧
    (urow roster ledger name quarter ms).ptoDays = 0 ∧
    (urow roster ledger name quarter ms).workingDays =
      22 * (ms.length : ℚ) ∧
    (∀ (m : String) (e : Engineer),
      roster.engineers.find? (fun x => x.name = name) = some e →
      ptoColKey m ∈ roster.ptoColumns →
      monthPto roster name m = e.pto (ptoColKey m)) := by
  have hz : ∀ m ∈ ms, monthPto roster name m = 0 := by
    intro m hm
    unfold monthPto
    cases hfind : roster.engineers.find? (fun e => e.name = name) with
    | none => rfl
    | some e =>
      dsimp only
      rw [if_neg (habsent m hm)]
  have hpto0 : totalPtoOf roster name ms = 0 := by
    unfold totalPtoOf
    have hmap : ms.map (fun m => monthPto roster name m) =
        ms.map fun _ => (0 : ℚ) := List.map_congr_left hz
    rw [hmap, sum_map_const]
    ring
  obtain ⟨hp, hw⟩ := urow_pto_working roster ledger name quarter ms
  refine ⟨hz, ?_, ?_, ?_⟩
  · rw [hp, hpto0]
  · rw [hw, totalWorking_of_noPto roster name ms hz]
  · intro m e hfind hmem
    unfold monthPto
    rw [hfind]
    dsimp only
    rw [if_pos hmem]

/-- An engineer row whose PTO map holds stray values while no PTO column
exists, and whose `Annual PTO Days` is the (stale) 84. -/
def engStrayPto : Engineer :=
  { name := "A", team := "Team A", role := "Backend Dev", weeklyHours := 40,
    pto := fun _ => 7, annualPto := 84 }

/-- Roster carrying `engStrayPto` with no PTO columns at all. -/
def rosterNoCols : Roster := { engineers := [engStrayPto], ptoColumns := [] }

/-- C5 witness: with the September 2025 column absent the aggregator uses
0 PTO days and 22 working days, although `annual_pto / 12 = 7`. -/
theorem C5_monthly_pto_lookup_witness :
    (∀ m ∈ ["2025-09"], ptoColKey m ∉ rosterNoCols.ptoColumns) ∧
    monthPto rosterNoCols "A" "2025-09" = 0 ∧
    (urow rosterNoCols [] "A" "Q1 FY2026" ["2025-09"]).ptoDays = 0 ∧
    (urow rosterNoCols [] "A" "Q1 FY2026" ["2025-09"]).workingDays = 22 := by
  have habs : ∀ m ∈ ["2025-09"], ptoColKey m ∉ rosterNoCols.ptoColumns := by
    intro m hm
    simp [rosterNoCols]
  have h := C5_monthly_pto_lookup rosterNoCols [] "A" "Q1 FY2026"
    ["2025-09"] habs
  refine ⟨habs, h.1 "2025-09" (by simp), h.2.1, ?_⟩
  rw [h.2.2.1]
  norm_num

/-! ### Theorems: zero-assignment quarters (C6) -/

/-- C6 counterexample: an engineer with no assignment at all but 11 PTO
days in the quarter's single window month is reported 50% available, not
the claimed 100%. -/
theorem C6_zero_assignment_cex :
    monthsWithDataOf ([] : List Assignment) "A" ["2025-08"] = 0 ∧
    (urow rosterHalfPto [] "A" "Q1 FY2026" ["2025-08"]).totalAlloc = 0 ∧
    (urow rosterHalfPto [] "A" "Q1 FY2026" ["2025-08"]).status =
      "Available" ∧
    (urow rosterHalfPto [] "A" "Q1 FY2026" ["2025-08"]).availCap = 50 ∧
    (urow rosterHalfPto [] "A" "Q1 FY2026" ["2025-08"]).availCap ≠ 100 :=
  of_decide_eq_true (by with_unfolding_all rfl)

/-- C6 (amended): a quarter with no assigned month reports Total
Allocation % 0 and Status "Available", and Available % equal to
`100 * avg_working_days_ratio` — which is 100 exactly when the engineer
also has no PTO in the quarter's months, but drops below 100 when PTO is
present (see the counterexample). -/
theorem C6_zero_assignment_quarter (roster : Roster)
    (ledger : List Assignment) (name quarter : String) (ms : List String)
    (hk : monthsWithDataOf ledger name ms = 0) (hne : ms ≠ []) :
    (urow roster ledger name quarter ms).totalAlloc = 0 ∧
    (urow roster ledger name quarter ms).effAlloc = 0 ∧
    (urow roster ledger name quarter ms).status = "Available" ∧
    (urow roster ledger name quarter ms).availCap =
      100 * workingRatioZeroOf roster name ms ∧
    ((∀ m ∈ ms, monthPto roster name m = 0) →
      (urow roster ledger name quarter ms).availCap = 100) := by
  obtain ⟨h1, h2, h3, h4⟩ := urow_zero_branch roster ledger name quarter ms hk
  have hlen : 0 < ms.length := List.length_pos.mpr hne
  have hlenq : ((ms.length : ℚ)) ≠ 0 := by
    exact_mod_cast Nat.pos_iff_ne_zero.mp hlen
  refine ⟨h1, h2, ?_, h3, ?_⟩
  · rw [h4]
    exact of_decide_eq_true (by with_unfolding_all rfl)
  · intro hz
    rw [h3]
    have havg : avgWorkingDaysOf roster name ms = 22 := by
      unfold avgWorkingDaysOf
      rw [totalWorking_of_noPto roster name ms hz, mul_div_assoc,
        div_self hlenq, mul_one]
    have hratio : workingRatioZeroOf roster name ms = 1 := by
      simp only [workingRatioZeroOf]
      rw [if_pos hlen, havg]
      norm_num
    rw [hratio]
    norm_num

/-- C6 witness: no assignments and no PTO in a one-month quarter gives
allocation 0, status "Available" and availability 100%. -/
theorem C6_zero_assignment_quarter_witness :
    monthsWithDataOf ([] : List Assignment) "A" ["2025-08"] = 0 ∧
    (urow rosterNoPto [] "A" "Q1 FY2026" ["2025-08"]).totalAlloc = 0 ∧
    (urow rosterNoPto [] "A" "Q1 FY2026" ["2025-08"]).status =
      "Available" ∧
    (urow rosterNoPto [] "A" "Q1 FY2026" ["2025-08"]).availCap = 100 := by
  have h := C6_zero_assignment_quarter rosterNoPto [] "A" "Q1 FY2026"
    ["2025-08"] (of_decide_eq_true (by with_unfolding_all rfl)) (by simp)
  refine ⟨of_decide_eq_true (by with_unfolding_all rfl), h.1, h.2.2.1, ?_⟩
  apply h.2.2.2.2
  intro m hm
  rw [List.mem_singleton] at hm
  subst hm
  exact of_decide_eq_true (by with_unfolding_all rfl)

/-! ### Theorems: empty-roster schema (C9) -/

/-- A 12-month lookahead window (4 fiscal quarters). -/
def months12 : List String :=
  ["2025-10", "2025-11", "2025-12", "2026-01", "2026-02", "2026-03",
   "2026-04", "2026-05", "2026-06", "2026-07", "2026-08", "2026-09"]

/-- A roster with no engineer rows at all. -/
def rosterEmptyNames : Roster := { engineers := [], ptoColumns := [] }

/-- C9: the early-return details schema for an empty roster omits the
`"Months with Data"` column that every row of the non-empty output
carries, so the empty and non-empty schemas differ. -/
theorem C9_empty_schema_mismatch :
    aggregatorDetailsColumns rosterEmptyNames [] months12 =
      emptyDetailsColumns ∧
    aggregatorDetailsColumns rosterNoPto [] months12 = fullDetailsColumns ∧
    emptyDetailsColumns ≠ fullDetailsColumns ∧
    "Months with Data" ∉ emptyDetailsColumns ∧
    "Months with Data" ∈ fullDetailsColumns := by
  refine ⟨rfl, ?_, by decide, by decide, by decide⟩
  rfl

/-! ### Theorems: output bounds (C10) -/

/-- The monthly PTO value is nonnegative whenever the roster's PTO entries
are. -/
theorem monthPto_nonneg (roster : Roster) (name month : String)
    (hpto : ∀ e ∈ roster.engineers, ∀ s, 0 ≤ e.pto s) :
    0 ≤ monthPto roster name month := by
  unfold monthPto
  cases hfind : roster.engineers.find? (fun e => e.name = name) with
  | none => exact le_refl 0
  | some e =>
    dsimp only
    split
    · exact hpto e (List.mem_of_find?_eq_some hfind) _
    · exact le_refl 0

/-- The allocation accumulator of `monthRawAlloc` never drops below its
starting value. -/
theorem allocFold_nonneg (l : List Assignment) (acc : ℚ) (h : 0 ≤ acc) :
    0 ≤ l.foldl
      (fun acc a =>
        match a.alloc with
        | some v => if 0 < v then acc + v else acc
        | none => acc) acc := by
  induction l generalizing acc with
  | nil => simpa using h
  | cons a t ih =>
    simp only [List.foldl_cons]
    apply ih
    cases ha : a.alloc with
    | none => simpa using h
    | some v =>
      dsimp only
      split
      · next hv => linarith
      · exact h

/-- Raw month allocations are nonnegative by construction. -/
theorem monthRawAlloc_nonneg (ledger : List Assignment) (name month : String) :
    0 ≤ monthRawAlloc ledger name month :=
  allocFold_nonneg _ 0 (le_refl 0)

/-- The accumulated quarter allocation is nonnegative. -/
theorem totalAllocOf_nonneg (ledger : List Assignment) (name : String)
    (ms : List String) : 0 ≤ totalAllocOf ledger name ms := by
  unfold totalAllocOf
  apply List.sum_nonneg
  intro x hx
  simp only [List.mem_map] at hx
  obtain ⟨m, hm, rfl⟩ := hx
  split
  · next h => exact le_of_lt h
  · exact le_refl 0

/-- The working-day total is nonnegative. -/
theorem totalWorkingOf_nonneg (roster : Roster) (name : String)
    (ms : List String) : 0 ≤ totalWorkingOf roster name ms := by
  unfold totalWorkingOf
  apply List.sum_nonneg
  intro x hx
  simp only [List.mem_map] at hx
  obtain ⟨m, hm, rfl⟩ := hx
  exact le_max_left 0 _

/-- With nonnegative PTO entries the working-day total is at most a full
22 days per month. -/
theorem totalWorkingOf_le (roster : Roster) (name : String)
    (ms : List String)
    (hpto : ∀ e ∈ roster.engineers, ∀ s, 0 ≤ e.pto s) :
    totalWorkingOf roster name ms ≤ 22 * (ms.length : ℚ) := by
  unfold totalWorkingOf
  have h1 : (ms.map fun m => max 0 (22 - monthPto roster name m)).sum ≤
      (ms.map fun _ => (22 : ℚ)).sum := by
    apply List.sum_le_sum
    intro m hm
    have := monthPto_nonneg roster name m hpto
    apply max_le (by norm_num)
    linarith
  rw [sum_map_const] at h1
  linarith

/-- The averaged working days lie in `[0, 22]` for nonnegative PTO. -/
theorem avgWorkingDaysOf_le (roster : Roster) (name : String)
    (ms : List String)
    (hpto : ∀ e ∈ roster.engineers, ∀ s, 0 ≤ e.pto s) :
    avgWorkingDaysOf roster name ms ≤ 22 := by
  unfold avgWorkingDaysOf
  rcases Nat.eq_zero_or_pos ms.length with h0 | hpos
  · rw [h0]
    norm_num
  · have hq : (0 : ℚ) < (ms.length : ℚ) := by exact_mod_cast hpos
    rw [div_le_iff hq]
    have := totalWorkingOf_le roster name ms hpto
    linarith

/-- The code's working-days ratio lies in `[0, 1]` for nonnegative PTO. -/
theorem workingRatioOf_bounds (roster : Roster) (name : String)
    (ms : List String)
    (hpto : ∀ e ∈ roster.engineers, ∀ s, 0 ≤ e.pto s) :
    0 ≤ workingRatioOf roster name ms ∧ workingRatioOf roster name ms ≤ 1 := by
  unfold workingRatioOf
  split
  · next h =>
    constructor
    · exact div_nonneg (le_of_lt h) (by norm_num)
    · rw [div_le_one (by norm_num : (0 : ℚ) < 22)]
      exact avgWorkingDaysOf_le roster name ms hpto
  · exact ⟨by norm_num, by norm_num⟩

/-- The guarded ratio of the no-assignment branch equals the plain one. -/
theorem workingRatioZeroOf_eq (roster : Roster) (name : String)
    (ms : List String) :
    workingRatioZeroOf roster name ms = workingRatioOf roster name ms := by
  rcases ms with _ | ⟨m, tl⟩
  · norm_num [workingRatioZeroOf, workingRatioOf, avgWorkingDaysOf,
      totalWorkingOf]
  · simp only [workingRatioZeroOf, workingRatioOf]
    rw [if_pos (by simp : 0 < (m :: tl).length)]

/-- Bounds on the unrounded aggregator row: availability in `[0, 100]` and
nonnegative allocations, given nonnegative PTO entries. -/
theorem urow_bounds (roster : Roster) (ledger : List Assignment)
    (name quarter : String) (ms : List String)
    (hpto : ∀ e ∈ roster.engineers, ∀ s, 0 ≤ e.pto s) :
    0 ≤ (urow roster ledger name quarter ms).availCap ∧
    (urow roster ledger name quarter ms).availCap ≤ 100 ∧
    0 ≤ (urow roster ledger name quarter ms).totalAlloc ∧
    0 ≤ (urow roster ledger name quarter ms).effAlloc := by
  obtain ⟨hr0, hr1⟩ := workingRatioOf_bounds roster name ms hpto
  rcases Nat.eq_zero_or_pos (monthsWithDataOf ledger name ms) with hk | hk
  · obtain ⟨h1, h2, h3, _⟩ := urow_zero_branch roster ledger name quarter ms hk
    refine ⟨?_, ?_, ?_, ?_⟩
    · rw [h3, workingRatioZeroOf_eq]
      exact mul_nonneg (by norm_num) hr0
    · rw [h3, workingRatioZeroOf_eq]
      linarith
    · rw [h1]
    · rw [h2]
  · have havail := urow_availCap_pos roster ledger name quarter ms hk
    have heff := urow_effAlloc_pos roster ledger name quarter ms hk
    have htot := urow_totalAlloc_pos roster ledger name quarter ms hk
    have heffnn : 0 ≤ totalAllocOf ledger name ms /
        (monthsWithDataOf ledger name ms : ℚ) :=
      div_nonneg (totalAllocOf_nonneg ledger name ms) (Nat.cast_nonneg _)
    refine ⟨?_, ?_, ?_, ?_⟩
    · rw [havail]
      exact le_max_left _ _
    · rw [havail]
      apply max_le (by norm_num)
      linarith
    · rw [htot]
      exact heffnn
    · rw [heff]
      exact heffnn

/-- Half-even rounding never goes below the floor. -/
theorem roundHalfEven_ge_floor (q : ℚ) : ⌊q⌋ ≤ roundHalfEven q := by
  simp only [roundHalfEven]
  split_ifs <;> omega

/-- Half-even rounding never exceeds the ceiling. -/
theorem roundHalfEven_le_ceil (q : ℚ) : roundHalfEven q ≤ ⌈q⌉ := by
  have hfc : ⌊q⌋ ≤ ⌈q⌉ := Int.floor_le_ceil q
  have key : ¬ (q - (⌊q⌋ : ℚ) < 1 / 2) → ⌊q⌋ + 1 ≤ ⌈q⌉ := by
    intro h
    push_neg at h
    have h2 : (⌊q⌋ : ℚ) < q := by linarith
    have h3 : ⌊q⌋ < ⌈q⌉ := by
      have h4 := Int.le_ceil q
      exact_mod_cast lt_of_lt_of_le h2 h4
    omega
  simp only [roundHalfEven]
  split_ifs with h1 h2 h3
  · exact hfc
  · exact key h1
  · exact hfc
  · exact key h1

/-- `round(x, 1)` of a nonnegative value is nonnegative. -/
theorem round1_nonneg (q : ℚ) (h : 0 ≤ q) : 0 ≤ round1 q := by
  unfold round1
  apply div_nonneg _ (by norm_num)
  have h1 : (0 : ℤ) ≤ ⌊10 * q⌋ := Int.le_floor.mpr (by push_cast; linarith)
  have h2 := roundHalfEven_ge_floor (10 * q)
  exact_mod_cast le_trans h1 h2

/-- `round(x, 1)` of a value at most 100 is at most 100. -/
theorem round1_le_100 (q : ℚ) (h : q ≤ 100) : round1 q ≤ 100 := by
  unfold round1
  rw [div_le_iff (by norm_num : (0 : ℚ) < 10)]
  have h1 : ⌈10 * q⌉ ≤ (1000 : ℤ) := Int.ceil_le.mpr (by push_cast; linarith)
  have h2 := le_trans (roundHalfEven_le_ceil (10 * q)) h1
  have h3 : ((roundHalfEven (10 * q) : ℤ) : ℚ) ≤ 1000 := by exact_mod_cast h2
  linarith

/-- Bounds on the rounded details row. -/
theorem drow_bounds (roster : Roster) (ledger : List Assignment)
    (name quarter : String) (ms : List String)
    (hpto : ∀ e ∈ roster.engineers, ∀ s, 0 ≤ e.pto s) :
    0 ≤ (drow roster ledger name quarter ms).availPct ∧
    (drow roster ledger name quarter ms).availPct ≤ 100 ∧
    0 ≤ (drow roster ledger name quarter ms).totalAllocPct ∧
    0 ≤ (drow roster ledger name quarter ms).effAllocPct := by
  obtain ⟨ha0, ha1, ht, he⟩ := urow_bounds roster ledger name quarter ms hpto
  exact ⟨round1_nonneg _ ha0, round1_le_100 _ ha1, round1_nonneg _ ht,
    round1_nonneg _ he⟩

/-- C10: with nonnegative roster PTO values and nonnegative ledger
allocations, every aggregator row has `Available %` in `[0, 100]` and
nonnegative `Total Allocation %` and `Effective Allocation %` (both on
the unrounded `utilization_data` entries and on the rounded
`availability_details` output). -/
theorem C10_output_bounds (roster : Roster) (ledger : List Assignment)
    (months : List String)
    (hpto : ∀ e ∈ roster.engineers, ∀ s, 0 ≤ e.pto s)
    (halloc : ∀ a ∈ ledger, ∀ v, a.alloc = some v → 0 ≤ v) :
    (∀ u ∈ aggregatorURows roster ledger months,
      0 ≤ u.availCap ∧ u.availCap ≤ 100 ∧
      0 ≤ u.totalAlloc ∧ 0 ≤ u.effAlloc) ∧
    (∀ d ∈ aggregatorDetailsRows roster ledger months,
      0 ≤ d.availPct ∧ d.availPct ≤ 100 ∧
      0 ≤ d.totalAllocPct ∧ 0 ≤ d.effAllocPct) := by
  constructor
  · intro u hu
    simp only [aggregatorURows, List.mem_flatMap, List.mem_map] at hu
    obtain ⟨q, hq, n, hn, rfl⟩ := hu
    exact urow_bounds roster ledger n q _ hpto
  · intro d hd
    simp only [aggregatorDetailsRows, List.mem_flatMap, List.mem_map] at hd
    obtain ⟨q, hq, n, hn, rfl⟩ := hd
    exact drow_bounds roster ledger n q _ hpto

/-- C10 witness: the bounds hold on the concrete details row of a
one-month window with a 30% assignment and no PTO. -/
theorem C10_output_bounds_witness :
    (0 : ℚ) ≤ (drow rosterNoPto [asg30] "A" "Q1 FY2026"
      (quarterMonthsIn ["2025-08"] "Q1 FY2026")).availPct ∧
    (drow rosterNoPto [asg30] "A" "Q1 FY2026"
      (quarterMonthsIn ["2025-08"] "Q1 FY2026")).availPct ≤ 100 ∧
    (0 : ℚ) ≤ (drow rosterNoPto [asg30] "A" "Q1 FY2026"
      (quarterMonthsIn ["2025-08"] "Q1 FY2026")).totalAllocPct ∧
    (0 : ℚ) ≤ (drow rosterNoPto [asg30] "A" "Q1 FY2026"
      (quarterMonthsIn ["2025-08"] "Q1 FY2026")).effAllocPct := by
  have hpto : ∀ e ∈ rosterNoPto.engineers, ∀ s, 0 ≤ e.pto s := by
    intro e he s
    have he2 : e = engNoPto := by
      simpa [rosterNoPto] using he
    subst he2
    exact le_refl 0
  have halloc : ∀ a ∈ [asg30], ∀ v, a.alloc = some v → 0 ≤ v := by
    intro a ha v hv
    have ha2 : a = asg30 := by simpa using ha
    subst ha2
    have h30 : asg30.alloc = some 30 := rfl
    rw [h30] at hv
    have hv2 : (30 : ℚ) = v := Option.some.inj hv
    rw [← hv2]
    norm_num
  have h := (C10_output_bounds rosterNoPto [asg30] ["2025-08"] hpto
      halloc).2
    (drow rosterNoPto [asg30] "A" "Q1 FY2026"
      (quarterMonthsIn ["2025-08"] "Q1 FY2026"))
    (of_decide_eq_true (by with_unfolding_all rfl))
  exact ⟨h.1, h.2.1, h.2.2.1, h.2.2.2⟩
